import Mathlib

/-!
Shallow embedding of the document-attribute-extraction pipeline
(`src/extraction/pdf_loader.py`, `src/extraction/vector_store.py`,
`src/extraction/extractor.py`) and proofs about it.

External collaborators (pdfplumber, the langchain text splitter, the
HuggingFace embedder, the Gemini client, `json.loads`) are modelled as
explicit function parameters; everything written in the repository itself is
translated definitionally.
-/

namespace DocExtract

/-! ### Python string primitives

`str.strip`, `str.splitlines`, `str.startswith`, `str.endswith`,
`str.split(sep, 1)[-1]` and `str.rsplit(sep, 1)[0]`, modelled on `List Char`.
Python's `strip`/`splitlines` also recognise some exotic Unicode separators;
the inputs of this pipeline are ordinary text, and we model the ASCII ones.
-/

def pyIsSpace (c : Char) : Bool :=
  c = ' ' || c = '\t' || c = '\n' || c = '\r' || c = '\x0b' || c = '\x0c'

def pyStripList (l : List Char) : List Char :=
  ((l.dropWhile pyIsSpace).reverse.dropWhile pyIsSpace).reverse

/-- Python `str.strip()`. -/
def pyStrip (s : String) : String :=
  String.mk (pyStripList s.data)

/-- Python `str.splitlines()`, recognising `\n`, `\r\n` and `\r`.
A trailing line terminator does not produce a final empty line. -/
def pySplitlinesAux : List Char → List Char → List (List Char)
  | [], acc => if acc.isEmpty then [] else [acc.reverse]
  | '\n' :: rest, acc => acc.reverse :: pySplitlinesAux rest []
  | '\r' :: '\n' :: rest, acc => acc.reverse :: pySplitlinesAux rest []
  | '\r' :: rest, acc => acc.reverse :: pySplitlinesAux rest []
  | c :: rest, acc => pySplitlinesAux rest (c :: acc)

def pySplitlines (s : String) : List String :=
  (pySplitlinesAux s.data []).map String.mk

/-- Python `s.split("\n", 1)[-1]`: everything after the first newline,
or the whole string when it has no newline. -/
def pySplitOnceAfterNewline (s : String) : String :=
  if s.data.contains '\n' then String.mk ((s.data.dropWhile (fun c => c ≠ '\n')).drop 1)
  else s

/-- Start positions of every occurrence of `sep` in `l`. -/
def occurrenceStarts (sep l : List Char) : List Nat :=
  (List.range (l.length + 1)).filter (fun i => sep.isPrefixOf (l.drop i))

/-- Python `s.rsplit(sep, 1)[0]`: everything before the last occurrence of
`sep`, or the whole string when `sep` does not occur. -/
def pyRsplitOnceBefore (sep : String) (s : String) : String :=
  match (occurrenceStarts sep.data s.data).getLast? with
  | some i => String.mk (s.data.take i)
  | none => s

/-- Python `s.startswith(p)`. -/
def pyStartswith (p s : String) : Bool :=
  p.data.isPrefixOf s.data

/-- Python `s.endswith(p)`. -/
def pyEndswith (p s : String) : Bool :=
  p.data.isSuffixOf s.data

/-! ### `pdf_loader.extract_text_from_pdf`

A PDF, as seen through `pdfplumber`, is the list of the per-page results of
`page.extract_text()` (`none` when extraction yields no text).  The source
keeps page `i` (0-based) as `(i + 1, text)` exactly when
`text and text.strip()` is truthy. -/

def extract_text_from_pdf (pdfPages : List (Option String)) : List (Nat × String) :=
  pdfPages.enum.filterMap (fun it =>
    match it.2 with
    | none => none
    | some text => if pyStrip text ≠ "" then some (it.1 + 1, text) else none)

/-! ### `pdf_loader.find_repeated_lines` / `clean_page_text`

The Python dict `line_page_count` is modelled as a partial map
`String → Option Nat` (`none` = key absent, exactly Python's `get(line, 0)`
default); its insertion order is unobservable because the function returns a
*set* of lines, which we model by its membership test. -/

/-- `set(line.strip() for line in text.splitlines() if line.strip())`,
as a duplicate-free list. -/
def uniqueLines (text : String) : List String :=
  (((pySplitlines text).map pyStrip).filter (fun s => s ≠ "")).dedup

def pyDictGet0 (d : String → Option Nat) (line : String) : Nat :=
  (d line).getD 0

/-- `line_page_count[line] = line_page_count.get(line, 0) + 1`. -/
def pyDictIncr (d : String → Option Nat) (line : String) : String → Option Nat :=
  fun x => if x = line then some (pyDictGet0 d line + 1) else d x

/-- The dict built by the page loop of `find_repeated_lines`. -/
def line_page_count (page_texts : List String) : String → Option Nat :=
  page_texts.foldl (fun d text => (uniqueLines text).foldl pyDictIncr d) (fun _ => none)

/-- The comparison `count > total_pages * threshold` over exact rationals,
written by cross-multiplication with the (positive) denominator so that it
evaluates by integer arithmetic; `gtMulThreshold_iff` below proves it equal
to the rational-order comparison. -/
def gtMulThreshold (count total_pages : Nat) (threshold : ℚ) : Bool :=
  decide ((total_pages : ℤ) * threshold.num < (count : ℤ) * (threshold.den : ℤ))

/-- `find_repeated_lines(page_texts, threshold)`, as the membership test of
the returned set: `{line for line, count in ... if count > total_pages * threshold}`. -/
def find_repeated_lines (page_texts : List String) (threshold : ℚ) (line : String) : Bool :=
  let total_pages := page_texts.length
  if total_pages = 0 then false
  else
    match line_page_count page_texts line with
    | some count => gtMulThreshold count total_pages threshold
    | none => false

/-- `clean_page_text(text, repeated_lines)`; the set argument is its
membership test. -/
def clean_page_text (text : String) (repeated_lines : String → Bool) : String :=
  let cleaned := (pySplitlines text).filter
    (fun line => pyStrip line ≠ "" && !repeated_lines (pyStrip line))
  pyStrip ("\n".intercalate cleaned)

/-! ### `pdf_loader.chunk_pages`

`RecursiveCharacterTextSplitter(chunk_size, chunk_overlap).split_text` is
external library code; it is passed in as `splitter chunk_size chunk_overlap`. -/

structure ChunkMeta where
  page : Nat
  chunk_index : Nat
  source : String
deriving DecidableEq, Repr

structure Document where
  page_content : String
  metadata : ChunkMeta
deriving DecidableEq, Repr

def chunk_pages (splitter : Nat → Nat → String → List String)
    (pages : List (Nat × String)) (chunk_size chunk_overlap : Nat)
    (source : String) : List Document :=
  let split_text := splitter chunk_size chunk_overlap
  pages.flatMap (fun pt =>
    (split_text pt.2).enum.map (fun ic =>
      { page_content := ic.2
        metadata := { page := pt.1, chunk_index := ic.1, source := source } }))

/-! ### `vector_store.py`

ChromaDB is modelled explicitly: a `Collection` is a named list of stored
entries in insertion order; the persist directory is the list of collections
living under `CHROMA_DB_PERSIST_DIRECTORY_PATH` (`none` when the directory
does not exist).  `collection.query` ranks
the stored entries by squared Euclidean distance to the query embedding
(stable on ties, matching insertion order) and takes the first `n_results`.
The embedding service (`HuggingFaceEmbeddings`) is an explicit parameter:
`embed_documents` may fail, which models `EmbeddingServiceError`.  Embedding
coordinates are modelled as integers (any discrete subset of the reals works
for the ranking semantics; integers keep every distance computation exact
and executable). -/

abbrev Vec := List ℤ

structure StoredEntry where
  id : String
  document : String
  embedding : Vec
  metadata : ChunkMeta
deriving DecidableEq, Repr

structure Collection where
  name : String
  entries : List StoredEntry
deriving DecidableEq, Repr

def Collection.count (c : Collection) : Nat :=
  c.entries.length

def sqDist (u v : Vec) : ℤ :=
  ((u.zip v).map (fun p => (p.1 - p.2) ^ 2)).sum

/-- The raw result dict of `collection.query` for a single query embedding
(the source always passes one embedding and immediately indexes `[0]`, so the
outer one-element nesting is collapsed). -/
structure QueryResult where
  ids : List String
  documents : List String
  metadatas : List ChunkMeta
  distances : List ℤ
deriving DecidableEq, Repr

def Collection.query (c : Collection) (query_embedding : Vec) (n_results : Nat) :
    QueryResult :=
  let ranked := c.entries.insertionSort
    (fun a b => sqDist a.embedding query_embedding ≤ sqDist b.embedding query_embedding)
  let top := ranked.take n_results
  { ids := top.map (·.id)
    documents := top.map (·.document)
    metadatas := top.map (·.metadata)
    distances := top.map (fun e => sqDist e.embedding query_embedding) }

/-- The `ValueError` raised by `query_vector_store`'s guard. -/
inductive QueryError where
  | invalidK (k : Nat) (collection_size : Nat)
deriving DecidableEq, Repr

/-- `query_vector_store(collection, query, k)`; the query-embedding side of
the shared embedder is the parameter `embed_query`.  The guard runs before
the embedder or the collection's stored entries are consulted, which the
theorem below reflects by holding for every `embed_query`. -/
def query_vector_store (embed_query : String → Vec) (collection : Collection)
    (query : String) (k : Nat) : Except QueryError QueryResult :=
  let collection_size := collection.count
  if collection_size < k then
    .error (.invalidK k collection_size)
  else
    let query_embedding := embed_query query
    .ok (collection.query query_embedding k)

/-- Contents of `CHROMA_DB_PERSIST_DIRECTORY_PATH`: `none` when the directory
does not exist on disk. -/
structure VectorStoreState where
  persist_dir : Option (List Collection)
deriving DecidableEq, Repr

/-- `if os.path.exists(path): shutil.rmtree(path)`. -/
def rmtree_if_exists (st : VectorStoreState) : VectorStoreState :=
  if st.persist_dir.isSome then { persist_dir := none } else st

/-- `chromadb.PersistentClient(path=...)`: creates the directory when absent. -/
def persistent_client_open (st : VectorStoreState) : VectorStoreState :=
  match st.persist_dir with
  | none => { persist_dir := some [] }
  | some d => { persist_dir := some d }

/-- `client.get_or_create_collection(name=...)`. -/
def get_or_create_collection (st : VectorStoreState) (name : String) :
    Collection × VectorStoreState :=
  let d := st.persist_dir.getD []
  match d.find? (fun c => c.name = name) with
  | some c => (c, { persist_dir := some d })
  | none =>
      let c : Collection := { name := name, entries := [] }
      (c, { persist_dir := some (d ++ [c]) })

/-- Write back a collection's new contents under its name. -/
def storeCollection (st : VectorStoreState) (c : Collection) : VectorStoreState :=
  let d := st.persist_dir.getD []
  if d.any (fun c0 => c0.name = c.name) then
    { persist_dir := some (d.map (fun c0 => if c0.name = c.name then c else c0)) }
  else
    { persist_dir := some (d ++ [c]) }

inductive EmbeddingServiceError where
  | failure (msg : String)
deriving DecidableEq, Repr

/-- `create_vector_store(documents, collection_name)` as a state transformer
on the persist directory.  `embed_documents` is the batch embedding call of
the shared embedder; its failure is `EmbeddingServiceError`, raised after the
old store has been deleted and the fresh empty collection created but before
`collection.add` runs. -/
def create_vector_store
    (embed_documents : List String → Except EmbeddingServiceError (List Vec))
    (documents : List Document) (collection_name : String)
    (st : VectorStoreState) :
    Except EmbeddingServiceError Collection × VectorStoreState :=
  let st := rmtree_if_exists st
  let st := persistent_client_open st
  let cs := get_or_create_collection st collection_name
  let collection := cs.1
  let st := cs.2
  let ids := (List.range documents.length).map (fun i => "chunk_" ++ toString i)
  let texts := documents.map (·.page_content)
  let metadatas := documents.map (·.metadata)
  match embed_documents texts with
  | .error e => (.error e, st)
  | .ok embeddings =>
      let entries := ((ids.zip texts).zip (embeddings.zip metadatas)).map
        (fun p => { id := p.1.1, document := p.1.2, embedding := p.2.1, metadata := p.2.2 })
      let collection := { collection with entries := collection.entries ++ entries }
      (.ok collection, storeCollection st collection)

/-! ### `extractor.py`

The Gemini client is a parameter `llm_invoke` taking the system prompt and
the user message and returning the response `content`, which LangChain may
deliver as a plain string, a list of parts, or a dict carrying a `text` key
(`PyContent` below mirrors the `isinstance` normalisation chain).
`json.loads` is the standard library; it is a parameter
`json_loads : String → Option (List (String × String))` returning the parsed
top-level JSON object as key/value pairs, or `none` on `JSONDecodeError`.
Credential lookup (`get_secret`) only produces the API key consumed by the
client and is elided. -/

inductive PyPart where
  | textDict (s : String)
  | strPart (s : String)
  | otherRepr (s : String)
deriving DecidableEq, Repr

inductive PyContent where
  | str (s : String)
  | list (parts : List PyPart)
  | textDict (s : String)
deriving DecidableEq, Repr

/-- The `isinstance(content, list) / dict` normalisation in `extract_attribute`. -/
def normalize_content : PyContent → String
  | .str s => s
  | .list parts =>
      " ".intercalate (parts.map (fun p =>
        match p with
        | .textDict s => s
        | .strPart s => s
        | .otherRepr s => s))
  | .textDict s => s

/-- `raw = content.strip()`, the two fence checks, and the final `strip()`. -/
def strip_fences (content : String) : String :=
  let raw := pyStrip content
  let raw := if pyStartswith "```" raw then pySplitOnceAfterNewline raw else raw
  let raw := if pyEndswith "```" raw then pyRsplitOnceBefore "```" raw else raw
  pyStrip raw

/-- Python `parsed.get(key, default)` for the parsed JSON object. -/
def pyDictGetStr (d : List (String × String)) (key dflt : String) : String :=
  match d.find? (fun p => p.1 = key) with
  | some p => p.2
  | none => dflt

/-- `list(dict.fromkeys(xs))`: first-seen deduplication, insertion order. -/
def pyDictFromKeys {α : Type} [DecidableEq α] (xs : List α) : List α :=
  xs.foldl (fun acc x => if x ∈ acc then acc else acc ++ [x]) []

def SYSTEM_PROMPT : String :=
  "You are reading excerpts from a legal document.\nBased only on these excerpts, extract the value for the requested attribute.\nRespond in JSON with exactly these keys:\n- \"value\": the extracted answer (use \"not found\" if the answer is not in the excerpts)\n- \"confidence\": \"high\", \"medium\", or \"low\" based on how clearly the answer appears\n- \"reasoning\": one sentence explaining where you found it\n\nRespond with ONLY the JSON object, no markdown fences, no extra text."

/-- The context block: retrieved chunks prefixed with their page numbers,
in retrieval rank order (`docs` and `metas` have equal length by
construction of `QueryResult`, so the Python index loop is a zip). -/
def retrieved_context (results : QueryResult) : String :=
  "\n\n---\n\n".intercalate ((results.documents.zip results.metadatas).map
    (fun p => "[Page " ++ toString p.2.page ++ "]\n" ++ p.1))

def extraction_user_message (results : QueryResult) (attribute_name : String) : String :=
  "Here are the relevant excerpts from the document:\n\n" ++ retrieved_context results
    ++ "\n\nExtract the value for: " ++ attribute_name

structure ExtractionResult where
  value : String
  confidence : String
  reasoning : String
  source_pages : List Nat
  source_chunks : List String
deriving DecidableEq, Repr

/-- `extract_attribute(collection, attribute_name, k)`. -/
def extract_attribute (embed_query : String → Vec)
    (llm_invoke : String → String → PyContent)
    (json_loads : String → Option (List (String × String)))
    (collection : Collection) (attribute_name : String) (k : Nat) :
    Except QueryError ExtractionResult :=
  match query_vector_store embed_query collection attribute_name k with
  | .error e => .error e
  | .ok results =>
      let docs := results.documents
      let metas := results.metadatas
      let source_chunks := docs
      let source_pages := pyDictFromKeys (metas.map (·.page))
      let user_message := extraction_user_message results attribute_name
      let content := llm_invoke SYSTEM_PROMPT user_message
      let raw := strip_fences (normalize_content content)
      let parsed :=
        match json_loads raw with
        | some d => d
        | none => [("value", raw), ("confidence", "low"), ("reasoning", "Failed to parse JSON")]
      .ok { value := pyDictGetStr parsed "value" "not found"
            confidence := pyDictGetStr parsed "confidence" "low"
            reasoning := pyDictGetStr parsed "reasoning" ""
            source_pages := source_pages
            source_chunks := source_chunks }

/-- `extract_all_attributes(collection, attribute_list)`: the sequential
loop `results[name] = extract_attribute(collection, name)` with no exception
handling.  The per-attribute extractor is abstracted as `f` so that any
failure kind (`GenerationError`, `RetrievalError`, ...) is covered; the
result dict is its ordered key/value pairs. -/
def extract_all_attributes {ε ρ : Type} (f : String → Except ε ρ) :
    List String → Except ε (List (String × ρ))
  | [] => .ok []
  | name :: rest =>
      match f name with
      | .error e => .error e
      | .ok r =>
          match extract_all_attributes f rest with
          | .error e => .error e
          | .ok rs => .ok ((name, r) :: rs)

/-! ### Spec-side definitions and shared example data -/

/-- The page-count the specification speaks about: the number of distinct
pages containing `line` at least once (multiple occurrences on one page
count once; whitespace-only lines are ignored by `uniqueLines`). -/
def pagesContaining (page_texts : List String) (line : String) : Nat :=
  (page_texts.filter (fun t => decide (line ∈ uniqueLines t))).length

/-- The specification's "distinct page numbers in first-seen order":
keep each element's first occurrence, drop later duplicates. -/
def firstSeenDistinct {α : Type} [DecidableEq α] : List α → List α
  | [] => []
  | x :: xs => x :: (firstSeenDistinct xs).filter (fun y => y ≠ x)

/-- The per-page chunk list of `chunk_pages`: one `Document` per split piece
of that single page's text, `chunk_index` counting from 0 within the page. -/
def pageChunks (split_text : String → List String) (source : String)
    (pt : Nat × String) : List Document :=
  (split_text pt.2).enum.map (fun ic =>
    { page_content := ic.2
      metadata := { page := pt.1, chunk_index := ic.1, source := source } })

/-- The fence-stripped, trimmed text of the model response that
`extract_attribute` hands to `json.loads`. -/
def llm_raw (llm_invoke : String → String → PyContent) (results : QueryResult)
    (attribute_name : String) : String :=
  strip_fences (normalize_content
    (llm_invoke SYSTEM_PROMPT (extraction_user_message results attribute_name)))

deriving instance DecidableEq for Except

/-- A three-chunk collection used as concrete input by witnesses and
counterexamples: embeddings `[0]`, `[1]`, `[2]`, page metadata 3, 1, 3. -/
def exampleCollection : Collection :=
  { name := "document_chunks"
    entries := [
      { id := "chunk_0", document := "d0", embedding := [0], metadata := ⟨3, 0, "s"⟩ },
      { id := "chunk_1", document := "d1", embedding := [1], metadata := ⟨1, 0, "s"⟩ },
      { id := "chunk_2", document := "d2", embedding := [2], metadata := ⟨3, 1, "s"⟩ }] }

/-- A well-formed JSON object response whose `"confidence"` value is the
out-of-enum string `"certain"`. -/
def exampleJsonCertain : String :=
  "\x7b\"value\": \"Acme Corp.\", \"confidence\": \"certain\", \"reasoning\": \"stated plainly\"\x7d"

/-- `json.loads` on `exampleJsonCertain` (and `JSONDecodeError` elsewhere,
which is all the counterexample run feeds it). -/
def exampleLoadsCertain : String → Option (List (String × String)) :=
  fun s =>
    if s = exampleJsonCertain then
      some [("value", "Acme Corp."), ("confidence", "certain"), ("reasoning", "stated plainly")]
    else none

/-- A persist directory holding one collection `"old"` with one stored chunk:
the prior state used to exhibit the destructive rebuild. -/
def examplePriorState : VectorStoreState :=
  { persist_dir := some [
      { name := "old"
        entries := [
          { id := "chunk_0", document := "prior", embedding := [7], metadata := ⟨1, 0, "s"⟩ }] }] }

/-! ### Lemmas: the repeated-line counting dict -/

theorem gtMulThreshold_iff (count total_pages : Nat) (threshold : ℚ) :
    gtMulThreshold count total_pages threshold = true ↔
      (total_pages : ℚ) * threshold < (count : ℚ) := by
  rw [gtMulThreshold, decide_eq_true_iff]
  have hden : (0 : ℚ) < ((threshold.den : ℤ) : ℚ) := by
    exact_mod_cast threshold.den_pos
  have hden0 : ((threshold.den : ℚ)) ≠ 0 := by
    exact_mod_cast threshold.den_nz
  have hkey : (threshold.num : ℚ) = threshold * (threshold.den : ℚ) :=
    (div_eq_iff hden0).mp (Rat.num_div_den threshold)
  constructor
  · intro h
    have h' : ((total_pages : ℤ) : ℚ) * ((threshold.num : ℤ) : ℚ) <
        ((count : ℤ) : ℚ) * ((threshold.den : ℤ) : ℚ) := by exact_mod_cast h
    push_cast at h'
    rw [hkey, ← mul_assoc] at h'
    have := lt_of_mul_lt_mul_right h' (by positivity)
    exact_mod_cast this
  · intro h
    have h' := mul_lt_mul_of_pos_right h (show (0 : ℚ) < (threshold.den : ℚ) by positivity)
    rw [mul_assoc, ← hkey] at h'
    exact_mod_cast h'

theorem nodup_uniqueLines (t : String) : (uniqueLines t).Nodup :=
  List.nodup_dedup _

theorem mem_uniqueLines {t s : String} :
    s ∈ uniqueLines t ↔ (∃ l ∈ pySplitlines t, pyStrip l = s) ∧ s ≠ "" := by
  simp only [uniqueLines, List.mem_dedup, List.mem_filter, List.mem_map,
    decide_eq_true_iff, ne_eq]

theorem foldl_pyDictIncr_apply (lines : List String) (hnd : lines.Nodup)
    (d : String → Option Nat) (x : String) :
    (lines.foldl pyDictIncr d) x =
      if x ∈ lines then some (pyDictGet0 d x + 1) else d x := by
  induction lines generalizing d with
  | nil => simp
  | cons l ls ih =>
    have hl : l ∉ ls := (List.nodup_cons.mp hnd).1
    have hls : ls.Nodup := (List.nodup_cons.mp hnd).2
    rw [List.foldl_cons, ih hls]
    by_cases hx : x = l
    · subst hx
      simp [hl, pyDictIncr]
    · simp [List.mem_cons, hx, pyDictIncr, pyDictGet0]

theorem pagesContaining_cons (t : String) (ts : List String) (x : String) :
    pagesContaining (t :: ts) x =
      (if x ∈ uniqueLines t then 1 else 0) + pagesContaining ts x := by
  by_cases h : x ∈ uniqueLines t <;>
    simp [pagesContaining, List.filter_cons, h, Nat.add_comm]

theorem pagesContaining_pos_iff (texts : List String) (x : String) :
    0 < pagesContaining texts x ↔ ∃ t ∈ texts, x ∈ uniqueLines t := by
  rw [pagesContaining, List.length_pos_iff_exists_mem]
  constructor
  · rintro ⟨t, ht⟩
    have := List.mem_filter.mp ht
    exact ⟨t, this.1, by simpa using this.2⟩
  · rintro ⟨t, ht, hx⟩
    exact ⟨t, List.mem_filter.mpr ⟨ht, by simpa using hx⟩⟩

theorem foldl_pages_apply (texts : List String) (d : String → Option Nat) (x : String) :
    (texts.foldl (fun d text => (uniqueLines text).foldl pyDictIncr d) d) x =
      if 0 < pagesContaining texts x then
        some (pyDictGet0 d x + pagesContaining texts x)
      else d x := by
  induction texts generalizing d with
  | nil => simp [pagesContaining]
  | cons t ts ih =>
    rw [List.foldl_cons, ih, pagesContaining_cons]
    have hstep := foldl_pyDictIncr_apply (uniqueLines t) (nodup_uniqueLines t) d x
    by_cases hmem : x ∈ uniqueLines t
    · simp only [hmem, if_true] at hstep ⊢
      by_cases hpc : 0 < pagesContaining ts x
      · have : 0 < 1 + pagesContaining ts x := by omega
        simp [hstep, this, hpc, pyDictGet0]
        omega
      · have h0 : pagesContaining ts x = 0 := by omega
        simp [hstep, h0, pyDictGet0]
    · simp only [hmem, if_false] at hstep ⊢
      by_cases hpc : 0 < pagesContaining ts x
      · simp only [hpc, if_true, hstep, Nat.zero_add]
        have hget : pyDictGet0 ((uniqueLines t).foldl pyDictIncr d) x = pyDictGet0 d x := by
          simp [pyDictGet0, hstep]
        rw [hget]
      · simp [hpc, hstep]

theorem line_page_count_apply (page_texts : List String) (x : String) :
    line_page_count page_texts x =
      if 0 < pagesContaining page_texts x then some (pagesContaining page_texts x) else none := by
  rw [line_page_count, foldl_pages_apply]
  simp [pyDictGet0]

/-! ### Claim C3 -/

/-- C3 counterexample: for the two-page PDF whose first page has no
extractable text, the only emitted Page is `(2, "hello")` — its page number
is 2, the physical position, although its 1-based position among the pages
with extractable text is 1.  The claim's "page number equals its 1-based
position among the pages with extractable text" is therefore false. -/
theorem extract_text_position_cex :
    extract_text_from_pdf [none, some "hello"] = [(2, "hello")] ∧ (2 : Nat) ≠ 1 :=
  ⟨by decide, by decide⟩

/-- C3 (amended): every Page emitted by `extract_text_from_pdf` has
non-empty trimmed text, and its page number is its 1-based *physical*
position in the document (so blank pages leave holes in the numbering);
conversely every physical page with extractable, non-whitespace text is
emitted under its physical number. -/
theorem extract_text_pages_characterization (pdf : List (Option String)) :
    (∀ p ∈ extract_text_from_pdf pdf,
        pyStrip p.2 ≠ "" ∧ 1 ≤ p.1 ∧ pdf[p.1 - 1]? = some (some p.2)) ∧
    (∀ (i : Nat) (t : String), pdf[i]? = some (some t) → pyStrip t ≠ "" →
        (i + 1, t) ∈ extract_text_from_pdf pdf) := by
  constructor
  · intro p hp
    rw [extract_text_from_pdf] at hp
    obtain ⟨a, ha, hfa⟩ := List.mem_filterMap.mp hp
    obtain ⟨i, x⟩ := a
    rw [List.mem_enum_iff_getElem?] at ha
    cases x with
    | none => simp at hfa
    | some t =>
      by_cases h : pyStrip t = ""
      · simp [h] at hfa
      · simp only [h, ne_eq, not_false_iff, if_true, Option.some_inj] at hfa
        cases hfa
        exact ⟨h, by omega, by simpa using ha⟩
  · intro i t hget h
    rw [extract_text_from_pdf]
    refine List.mem_filterMap.mpr ⟨(i, some t), ?_, ?_⟩
    · exact List.mem_enum_iff_getElem?.mpr (by simpa using hget)
    · simp [h]

/-- C3 witness: the amended characterization applied to the concrete PDF
`[none, some "hello"]` at the emitted page `(2, "hello")`. -/
theorem extract_text_pages_characterization_witness :
    pyStrip "hello" ≠ "" ∧ 1 ≤ 2 ∧ [none, some "hello"][2 - 1]? = some (some "hello") :=
  (extract_text_pages_characterization [none, some "hello"]).1 (2, "hello") (by decide)

/-! ### Claim C4 -/

/-- C4: a line is marked repeated by `find_repeated_lines` exactly when it
occurs (as a trimmed, non-blank line) on at least one page and the number of
distinct pages containing it exceeds `threshold × total_pages` in exact
rational arithmetic; `clean_page_text` keeps precisely the lines whose
trimmed form is non-blank and not repeated; and on pages
`["A\nB", "A\nC", "A\nD"]` with threshold 1/2 the cleaned pages are
`["B", "C", "D"]`. -/
theorem boilerplate_filter_characterization :
    (∀ (page_texts : List String) (threshold : ℚ) (line : String),
        find_repeated_lines page_texts threshold line = true ↔
          (∃ t ∈ page_texts, line ∈ uniqueLines t) ∧
            (page_texts.length : ℚ) * threshold < (pagesContaining page_texts line : ℚ)) ∧
    (∀ (text : String) (rep : String → Bool),
        clean_page_text text rep =
          pyStrip ("\n".intercalate ((pySplitlines text).filter
            (fun l => decide (pyStrip l ≠ "" ∧ rep (pyStrip l) = false))))) ∧
    (["A\nB", "A\nC", "A\nD"].map (fun t =>
        clean_page_text t (find_repeated_lines ["A\nB", "A\nC", "A\nD"] (mkRat 1 2)))
      = ["B", "C", "D"]) := by
  refine ⟨?_, ?_, by decide⟩
  · intro texts θ line
    rw [find_repeated_lines]
    by_cases h0 : texts.length = 0
    · have : texts = [] := List.length_eq_zero.mp h0
      subst this
      simp
    · simp only [h0, if_false]
      rw [line_page_count_apply]
      by_cases hpc : 0 < pagesContaining texts line
      · simp only [hpc, if_true]
        rw [gtMulThreshold_iff]
        exact ⟨fun h => ⟨(pagesContaining_pos_iff texts line).mp hpc, h⟩, fun h => h.2⟩
      · simp only [hpc, if_false]
        constructor
        · intro h
          exact absurd h (by simp)
        · intro h
          exact absurd ((pagesContaining_pos_iff texts line).mpr h.1) hpc
  · intro text rep
    rw [clean_page_text]
    congr 2
    apply List.filter_congr
    intro l _
    by_cases h1 : pyStrip l = "" <;> by_cases h2 : rep (pyStrip l) <;> simp [h1, h2]

/-- C4 witness: the characterization applied to the spec's concrete pages:
"A" is repeated (3 of 3 pages, above half), and the iff's hypotheses are
discharged at that input. -/
theorem boilerplate_filter_characterization_witness :
    find_repeated_lines ["A\nB", "A\nC", "A\nD"] (mkRat 1 2) "A" = true :=
  (boilerplate_filter_characterization.1 ["A\nB", "A\nC", "A\nD"] (mkRat 1 2) "A").mpr
    ⟨⟨"A\nB", by decide, by decide⟩, by
      have h3 : pagesContaining ["A\nB", "A\nC", "A\nD"] "A" = 3 := by decide
      rw [h3]
      exact (gtMulThreshold_iff 3 3 (mkRat 1 2)).mp (by decide)⟩

/-! ### Claim C8 -/

/-- C8: `chunk_pages` is the page-by-page concatenation of per-page chunk
lists, so no chunk's text spans two pages: every chunk's text is one of the
splitter's pieces of a single page's text, tagged with that page's number
and the given source; within a page the chunk indices are `0, 1, 2, ...`;
and a page whose text is empty contributes zero chunks (the splitter
returns no pieces for the empty string, as `RecursiveCharacterTextSplitter`
does). -/
theorem chunk_pages_characterization
    (splitter : Nat → Nat → String → List String)
    (pages : List (Nat × String)) (chunk_size chunk_overlap : Nat) (source : String)
    (hempty : splitter chunk_size chunk_overlap "" = []) :
    (chunk_pages splitter pages chunk_size chunk_overlap source =
        pages.flatMap (pageChunks (splitter chunk_size chunk_overlap) source)) ∧
    (∀ d ∈ chunk_pages splitter pages chunk_size chunk_overlap source,
        ∃ pt ∈ pages, d.metadata.page = pt.1 ∧ d.metadata.source = source ∧
          d.page_content ∈ splitter chunk_size chunk_overlap pt.2) ∧
    (∀ pt : Nat × String,
        (pageChunks (splitter chunk_size chunk_overlap) source pt).map
            (fun d => d.metadata.chunk_index)
          = List.range (splitter chunk_size chunk_overlap pt.2).length) ∧
    (∀ pt : Nat × String, pt.2 = "" →
        pageChunks (splitter chunk_size chunk_overlap) source pt = []) := by
  refine ⟨rfl, ?_, ?_, ?_⟩
  · intro d hd
    rw [chunk_pages] at hd
    obtain ⟨pt, hpt, hmem⟩ := List.mem_flatMap.mp hd
    obtain ⟨ic, hic, hfic⟩ := List.mem_map.mp hmem
    refine ⟨pt, hpt, ?_, ?_, ?_⟩
    · rw [← hfic]
    · rw [← hfic]
    · rw [← hfic]
      rw [List.mem_enum_iff_getElem?] at hic
      obtain ⟨hlt, hel⟩ := List.getElem?_eq_some.mp hic
      exact hel ▸ List.getElem_mem hlt
  · intro pt
    rw [pageChunks, List.map_map]
    exact List.enum_map_fst _
  · intro pt h2
    rw [pageChunks, h2, hempty]
    rfl

/-- C8 witness: the characterization applied to a concrete splitter (one
piece per non-empty text) over a two-page input whose second page is
empty. -/
theorem chunk_pages_characterization_witness :
    chunk_pages (fun _ _ s => if s = "" then [] else [s]) [(1, "ab"), (2, "")] 1000 200 "doc.pdf"
      = [(1, "ab"), (2, "")].flatMap
          (pageChunks ((fun (_ _ : Nat) (s : String) => if s = "" then [] else [s]) 1000 200) "doc.pdf") :=
  (chunk_pages_characterization (fun _ _ s => if s = "" then [] else [s])
    [(1, "ab"), (2, "")] 1000 200 "doc.pdf" (by decide)).1

/-! ### Claim C9 -/

/-- C9: the aggregation loop calls the per-attribute extractor sequentially
in list order and performs no isolation: if every attribute before `y`
succeeds and extracting `y` fails, the whole call fails with that error —
for every tail, so the attributes after `y` cannot influence the outcome and
are never extracted — and when every attribute succeeds the result maps each
attribute, in order, to its extractor output. -/
theorem extract_all_attributes_propagation {ε ρ : Type} (f : String → Except ε ρ) :
    (∀ (pre : List String) (y : String) (post : List String) (e : ε),
        (∀ x ∈ pre, ∃ r, f x = .ok r) → f y = .error e →
        extract_all_attributes f (pre ++ y :: post) = .error e) ∧
    (∀ l : List String, (∀ x ∈ l, ∃ r, f x = .ok r) →
        ∃ rs, extract_all_attributes f l = .ok rs ∧ rs.map Prod.fst = l ∧
          ∀ p ∈ rs, f p.1 = .ok p.2) := by
  constructor
  · intro pre y post e
    induction pre with
    | nil =>
      intro _ hy
      simp [extract_all_attributes, hy]
    | cons a as ih =>
      intro hpre hy
      obtain ⟨r, hr⟩ := hpre a (List.mem_cons_self a as)
      have ih' := ih (fun x hx => hpre x (List.mem_cons_of_mem a hx)) hy
      simp [extract_all_attributes, hr, ih']
  · intro l
    induction l with
    | nil =>
      intro _
      exact ⟨[], rfl, rfl, by simp⟩
    | cons a as ih =>
      intro hl
      obtain ⟨r, hr⟩ := hl a (List.mem_cons_self a as)
      obtain ⟨rs, hrs, hmap, hall⟩ := ih (fun x hx => hl x (List.mem_cons_of_mem a hx))
      refine ⟨(a, r) :: rs, ?_, ?_, ?_⟩
      · simp [extract_all_attributes, hr, hrs]
      · simp [hmap]
      · intro p hp
        rcases List.mem_cons.mp hp with h | h
        · rw [h]
          exact hr
        · exact hall p h

/-- C9 witness: for the attribute list `["x", "y"]` where `"x"` succeeds and
`"y"` fails, the aggregator surfaces the error. -/
theorem extract_all_attributes_propagation_witness :
    extract_all_attributes
        (fun n => if n = "x" then Except.ok 1 else Except.error "GenerationError")
        ["x", "y"] = .error "GenerationError" :=
  (extract_all_attributes_propagation
      (fun n => if n = "x" then Except.ok 1 else Except.error "GenerationError")).1
    ["x"] "y" [] "GenerationError"
    (by
      intro x hx
      have : x = "x" := by simpa using hx
      rw [this]
      exact ⟨1, by decide⟩)
    (by decide)

/-! ### Lemmas: `dict.fromkeys` deduplication -/

theorem mem_firstSeenDistinct {α : Type} [DecidableEq α] (l : List α) (a : α) :
    a ∈ firstSeenDistinct l ↔ a ∈ l := by
  induction l with
  | nil => simp [firstSeenDistinct]
  | cons x xs ih =>
    simp only [firstSeenDistinct, List.mem_cons, List.mem_filter, decide_eq_true_iff, ne_eq]
    by_cases h : a = x
    · simp [h]
    · simp [h, ih]

theorem nodup_firstSeenDistinct {α : Type} [DecidableEq α] (l : List α) :
    (firstSeenDistinct l).Nodup := by
  induction l with
  | nil => simp [firstSeenDistinct]
  | cons x xs ih =>
    rw [firstSeenDistinct, List.nodup_cons]
    constructor
    · intro hx
      have := (List.mem_filter.mp hx).2
      simp at this
    · exact ih.filter _

theorem pyDictFromKeys_foldl {α : Type} [DecidableEq α] (l : List α) (acc : List α) :
    l.foldl (fun acc x => if x ∈ acc then acc else acc ++ [x]) acc =
      acc ++ (firstSeenDistinct l).filter (fun y => decide (y ∉ acc)) := by
  induction l generalizing acc with
  | nil => simp [firstSeenDistinct]
  | cons x xs ih =>
    rw [List.foldl_cons, firstSeenDistinct]
    by_cases hx : x ∈ acc
    · simp only [hx, if_true]
      rw [ih, List.filter_cons]
      simp only [hx, not_true, decide_eq_false_iff_not, if_neg, decide_eq_true_eq]
      rw [if_neg (by simp [hx])]
      rw [List.filter_filter]
      congr 1
      apply List.filter_congr
      intro y _
      by_cases hy : y ∈ acc
      · simp [hy]
      · have hyx : y ≠ x := fun h => hy (h ▸ hx)
        simp [hy, hyx]
    · simp only [hx, if_false]
      rw [ih, List.filter_cons]
      rw [if_pos (by simp [hx])]
      rw [List.filter_filter, List.append_assoc, List.singleton_append]
      congr 2
      apply List.filter_congr
      intro y _
      by_cases hy : y ∈ acc
      · simp [hy, List.mem_append]
      · by_cases hyx : y = x
        · simp [hyx, List.mem_append]
        · simp [hy, hyx, List.mem_append]

theorem pyDictFromKeys_eq_firstSeenDistinct {α : Type} [DecidableEq α] (l : List α) :
    pyDictFromKeys l = firstSeenDistinct l := by
  rw [pyDictFromKeys, pyDictFromKeys_foldl]
  simp

/-! ### Claim C7 -/

/-- C7: whenever `extract_attribute` returns a result, its `source_pages`
is the first-seen deduplication of the retrieved chunks' page numbers in
retrieval rank order (no numeric sorting; see `mem_firstSeenDistinct` and
`nodup_firstSeenDistinct` for what `firstSeenDistinct` preserves), its
entries are pairwise distinct, and `source_chunks` is the retrieved chunk
texts in rank order. -/
theorem extract_attribute_source_pages
    (embed_query : String → Vec) (llm_invoke : String → String → PyContent)
    (json_loads : String → Option (List (String × String)))
    (c : Collection) (attribute_name : String) (k : Nat) (res : ExtractionResult)
    (hres : extract_attribute embed_query llm_invoke json_loads c attribute_name k = .ok res) :
    res.source_pages =
      firstSeenDistinct (((c.query (embed_query attribute_name) k).metadatas).map
        (fun m => m.page)) ∧
    res.source_pages.Nodup ∧
    res.source_chunks = (c.query (embed_query attribute_name) k).documents := by
  rw [extract_attribute, query_vector_store] at hres
  by_cases hk : c.count < k
  · rw [if_pos hk] at hres
    exact absurd hres (by simp)
  · rw [if_neg hk] at hres
    simp only [Except.ok.injEq] at hres
    rw [← hres]
    refine ⟨pyDictFromKeys_eq_firstSeenDistinct _, ?_, rfl⟩
    rw [pyDictFromKeys_eq_firstSeenDistinct]
    exact nodup_firstSeenDistinct _

/-- C7 witness: a concrete extraction over `exampleCollection` whose ranked
chunks carry pages `[3, 1, 3]`; the theorem applies and the resulting
`source_pages` evaluates to `[3, 1]` — duplicates collapsed, first-seen
order, not sorted numerically. -/
theorem extract_attribute_source_pages_witness :
    ({ value := "prose", confidence := "low", reasoning := "Failed to parse JSON",
       source_pages := [3, 1], source_chunks := ["d0", "d1", "d2"] } : ExtractionResult).source_pages
        = firstSeenDistinct (((exampleCollection.query ((fun _ => ([0] : Vec)) "borrower") 3).metadatas).map
            (fun m => m.page)) ∧
    List.Nodup [3, 1] ∧
    (["d0", "d1", "d2"] : List String)
        = (exampleCollection.query ((fun _ => ([0] : Vec)) "borrower") 3).documents :=
  extract_attribute_source_pages (fun _ => [0]) (fun _ _ => .str "prose") (fun _ => none)
    exampleCollection "borrower" 3
    { value := "prose", confidence := "low", reasoning := "Failed to parse JSON",
      source_pages := [3, 1], source_chunks := ["d0", "d1", "d2"] }
    (by decide)

/-! ### Claim C5 -/

/-- C5 counterexample: a fenced, unparseable model response.  The fallback
value is the *fence-stripped* trimmed text `"not json"`, which differs from
the trimmed raw response text — so "value equals the trimmed raw response
text" fails as soon as the response carries code fences. -/
theorem parse_fallback_value_cex :
    extract_attribute (fun _ => [0]) (fun _ _ => .str "```json\nnot json\n```")
        (fun _ => none) exampleCollection "borrower" 3 =
      .ok { value := "not json", confidence := "low", reasoning := "Failed to parse JSON",
            source_pages := [3, 1], source_chunks := ["d0", "d1", "d2"] } ∧
    pyStrip "```json\nnot json\n```" ≠ "not json" :=
  ⟨by decide, by decide⟩

/-- C5 (amended): when structured parsing of the (fence-stripped, trimmed)
response fails, `extract_attribute` raises no error: it returns a result
whose value is that fence-stripped trimmed text (equal to the trimmed raw
response whenever no fences are present), whose confidence is `"low"`, and
whose reasoning notes the parse failure. -/
theorem extract_attribute_parse_fallback
    (embed_query : String → Vec) (llm_invoke : String → String → PyContent)
    (json_loads : String → Option (List (String × String)))
    (c : Collection) (attribute_name : String) (k : Nat)
    (hk : k ≤ c.count)
    (hparse : json_loads
      (llm_raw llm_invoke (c.query (embed_query attribute_name) k) attribute_name) = none) :
    extract_attribute embed_query llm_invoke json_loads c attribute_name k =
      .ok { value := llm_raw llm_invoke (c.query (embed_query attribute_name) k) attribute_name
            confidence := "low"
            reasoning := "Failed to parse JSON"
            source_pages := pyDictFromKeys
              (((c.query (embed_query attribute_name) k).metadatas).map (fun m => m.page))
            source_chunks := (c.query (embed_query attribute_name) k).documents } := by
  rw [extract_attribute, query_vector_store, if_neg (not_lt.mpr hk)]
  rw [llm_raw] at hparse
  simp only [hparse]
  rfl

/-- C5 witness: the amended fallback applied to a concrete plain-prose
response (no fences, parse fails), with `k = 3` on the three-chunk example
collection. -/
theorem extract_attribute_parse_fallback_witness :
    extract_attribute (fun _ => [0]) (fun _ _ => .str "plain prose") (fun _ => none)
        exampleCollection "borrower" 3 =
      .ok { value := llm_raw (fun _ _ => .str "plain prose")
              (exampleCollection.query ((fun _ => ([0] : Vec)) "borrower") 3) "borrower"
            confidence := "low"
            reasoning := "Failed to parse JSON"
            source_pages := pyDictFromKeys
              (((exampleCollection.query ((fun _ => ([0] : Vec)) "borrower") 3).metadatas).map
                (fun m => m.page))
            source_chunks := (exampleCollection.query ((fun _ => ([0] : Vec)) "borrower") 3).documents } :=
  extract_attribute_parse_fallback (fun _ => [0]) (fun _ _ => .str "plain prose") (fun _ => none)
    exampleCollection "borrower" 3 (by decide) (by decide)

/-! ### Claim C6 -/

/-- C6 counterexample: the model answers with well-formed JSON whose
confidence field is `"certain"`; `extract_attribute` performs no validation
and returns that string verbatim, so the returned confidence is not one of
`"high"`, `"medium"`, `"low"`. -/
theorem extract_attribute_confidence_cex :
    extract_attribute (fun _ => [0]) (fun _ _ => .str exampleJsonCertain) exampleLoadsCertain
        exampleCollection "borrower" 3 =
      .ok { value := "Acme Corp.", confidence := "certain", reasoning := "stated plainly",
            source_pages := [3, 1], source_chunks := ["d0", "d1", "d2"] } ∧
    "certain" ∉ (["high", "medium", "low"] : List String) :=
  ⟨by decide, by decide⟩

/-- C6 (amended): the confidence of every returned Extraction Result is
`"low"` when structured parsing fails, and otherwise is exactly the parsed
object's `"confidence"` string (default `"low"` when the key is absent) —
no validation against the high/medium/low enum is performed, so the field
lies in the enum only when the model's output does. -/
theorem extract_attribute_confidence_passthrough
    (embed_query : String → Vec) (llm_invoke : String → String → PyContent)
    (json_loads : String → Option (List (String × String)))
    (c : Collection) (attribute_name : String) (k : Nat) (res : ExtractionResult)
    (hres : extract_attribute embed_query llm_invoke json_loads c attribute_name k = .ok res) :
    res.confidence =
      match json_loads
          (llm_raw llm_invoke (c.query (embed_query attribute_name) k) attribute_name) with
      | none => "low"
      | some d => pyDictGetStr d "confidence" "low" := by
  rw [extract_attribute, query_vector_store] at hres
  by_cases hk : c.count < k
  · rw [if_pos hk] at hres
    exact absurd hres (by simp)
  · rw [if_neg hk] at hres
    simp only [Except.ok.injEq] at hres
    rw [← hres, llm_raw]
    cases hjl : json_loads (strip_fences (normalize_content (llm_invoke SYSTEM_PROMPT
        (extraction_user_message (c.query (embed_query attribute_name) k) attribute_name)))) with
    | none => simp [hjl, pyDictGetStr]
    | some d => simp [hjl]

/-- C6 witness: the pass-through equality applied to the concrete
`"certain"` run. -/
theorem extract_attribute_confidence_passthrough_witness :
    ({ value := "Acme Corp.", confidence := "certain", reasoning := "stated plainly",
       source_pages := [3, 1], source_chunks := ["d0", "d1", "d2"] } : ExtractionResult).confidence =
      match exampleLoadsCertain
          (llm_raw (fun _ _ => .str exampleJsonCertain)
            (exampleCollection.query ((fun _ => ([0] : Vec)) "borrower") 3) "borrower") with
      | none => "low"
      | some d => pyDictGetStr d "confidence" "low" :=
  extract_attribute_confidence_passthrough (fun _ => [0]) (fun _ _ => .str exampleJsonCertain)
    exampleLoadsCertain exampleCollection "borrower" 3
    { value := "Acme Corp.", confidence := "certain", reasoning := "stated plainly",
      source_pages := [3, 1], source_chunks := ["d0", "d1", "d2"] }
    (by decide)

/-! ### Claim C1 -/

/-- C1 counterexample: the guard in `query_vector_store` checks only the
upper bound.  Querying the three-chunk collection with `k = 0` is *not*
rejected: the call returns an ordinary (empty) result instead of an
`InvalidQueryError`-kind failure, so "k = 0 (or any k < 1) is rejected" is
false. -/
theorem query_k_zero_not_rejected_cex :
    query_vector_store (fun _ => [0]) exampleCollection "q" 0 =
      .ok { ids := [], documents := [], metadatas := [], distances := [] } := by
  decide

/-- C1 (amended): the query boundary validates only `k ≤ collection_size`.
When `k` exceeds the number of indexed chunks the call fails with the
`InvalidQueryError`-kind error carrying `k` and the collection size — for
*every* embedder, i.e. before the embedding or storage layer is consulted;
when `k ≤ collection_size` (including `k = 0`, which the claimed lower-bound
guard would reject) the query succeeds and returns exactly `k` results
ranked by ascending distance. -/
theorem query_vector_store_k_validation
    (embed_query : String → Vec) (c : Collection) (q : String) (k : Nat) :
    (c.count < k →
        query_vector_store embed_query c q k = .error (.invalidK k c.count)) ∧
    (k ≤ c.count →
        ∃ r, query_vector_store embed_query c q k = .ok r ∧
          r.ids.length = k ∧ r.documents.length = k ∧ r.metadatas.length = k ∧
          r.distances.length = k ∧ r.distances.Pairwise (fun a b => a ≤ b)) := by
  constructor
  · intro h
    rw [query_vector_store, if_pos h]
  · intro h
    rw [query_vector_store, if_neg (not_lt.mpr h)]
    refine ⟨_, rfl, ?_, ?_, ?_, ?_, ?_⟩
    · simp only [Collection.query, List.length_map, List.length_take,
        List.length_insertionSort]
      exact Nat.min_eq_left h
    · simp only [Collection.query, List.length_map, List.length_take,
        List.length_insertionSort]
      exact Nat.min_eq_left h
    · simp only [Collection.query, List.length_map, List.length_take,
        List.length_insertionSort]
      exact Nat.min_eq_left h
    · simp only [Collection.query, List.length_map, List.length_take,
        List.length_insertionSort]
      exact Nat.min_eq_left h
    · simp only [Collection.query, List.pairwise_map]
      haveI : IsTotal StoredEntry (fun a b =>
          sqDist a.embedding (embed_query q) ≤ sqDist b.embedding (embed_query q)) :=
        ⟨fun a b => le_total _ _⟩
      haveI : IsTrans StoredEntry (fun a b =>
          sqDist a.embedding (embed_query q) ≤ sqDist b.embedding (embed_query q)) :=
        ⟨fun a b c hab hbc => le_trans hab hbc⟩
      exact List.Pairwise.sublist (List.take_sublist k _)
        (List.sorted_insertionSort _ c.entries)

/-- C1 witness: on the three-chunk collection, `k = 5` yields the
out-of-bounds error with the collection size, via the amended theorem. -/
theorem query_vector_store_k_validation_witness :
    query_vector_store (fun _ => ([0] : Vec)) exampleCollection "q" 5 =
      .error (.invalidK 5 3) :=
  (query_vector_store_k_validation (fun _ => [0]) exampleCollection "q" 5).1 (by decide)

/-! ### Claim C2 -/

/-- C2 counterexample: with an embedding service that fails, rebuilding over
a persist directory that holds prior data does *not* leave the previously
persisted collection in its prior state: the directory is deleted before the
embedding call, so afterwards only the fresh empty collection remains. -/
theorem create_vector_store_prior_destroyed_cex :
    (create_vector_store (fun _ => .error (.failure "embed down"))
        [{ page_content := "t", metadata := ⟨1, 0, "s"⟩ }] "document_chunks"
        examplePriorState).2
      = { persist_dir := some [{ name := "document_chunks", entries := [] }] } ∧
    (create_vector_store (fun _ => .error (.failure "embed down"))
        [{ page_content := "t", metadata := ⟨1, 0, "s"⟩ }] "document_chunks"
        examplePriorState).2
      ≠ examplePriorState :=
  ⟨by decide, by decide⟩

/-- C2 (amended): the build is all-or-nothing for the chunks being written —
if the batch embedding call fails, `collection.add` never runs, the error
propagates, and the named collection is left empty (no partial write).  But
the previously persisted directory is removed *before* the embedding call,
so on failure the store holds only the fresh empty collection rather than
its prior contents, whatever the prior state was. -/
theorem create_vector_store_embed_failure
    (embed_documents : List String → Except EmbeddingServiceError (List Vec))
    (documents : List Document) (collection_name : String) (st : VectorStoreState)
    (e : EmbeddingServiceError)
    (h : embed_documents (documents.map (fun d => d.page_content)) = .error e) :
    create_vector_store embed_documents documents collection_name st =
      (.error e, { persist_dir := some [{ name := collection_name, entries := [] }] }) := by
  obtain ⟨pd⟩ := st
  cases pd <;>
    simp [create_vector_store, rmtree_if_exists, persistent_client_open,
      get_or_create_collection, h]

/-- C2 witness: the failure path evaluated on the concrete prior state with
one previously persisted collection. -/
theorem create_vector_store_embed_failure_witness :
    create_vector_store (fun _ => .error (.failure "embed down"))
        [{ page_content := "t", metadata := ⟨1, 0, "s"⟩ }] "document_chunks"
        examplePriorState =
      (.error (.failure "embed down"),
       { persist_dir := some [{ name := "document_chunks", entries := [] }] }) :=
  create_vector_store_embed_failure (fun _ => .error (.failure "embed down"))
    [{ page_content := "t", metadata := ⟨1, 0, "s"⟩ }] "document_chunks"
    examplePriorState (.failure "embed down") rfl

/-! ### Claim C10 -/

/-- C10: `create_vector_store` first removes the whole persist directory, so
its outcome — return value and final directory — is entirely independent of
the prior state, and every collection present afterwards carries the
rebuilt collection's name: nothing persisted under any other name (nor any
prior content of the same name) survives a rebuild. -/
theorem create_vector_store_destroys_directory
    (embed_documents : List String → Except EmbeddingServiceError (List Vec))
    (documents : List Document) (collection_name : String) (st : VectorStoreState) :
    create_vector_store embed_documents documents collection_name st =
      create_vector_store embed_documents documents collection_name { persist_dir := none } ∧
    ∃ d, (create_vector_store embed_documents documents collection_name st).2.persist_dir
        = some d ∧ ∀ c ∈ d, c.name = collection_name := by
  have hind : create_vector_store embed_documents documents collection_name st =
      create_vector_store embed_documents documents collection_name { persist_dir := none } := by
    obtain ⟨pd⟩ := st
    cases pd <;>
      simp [create_vector_store, rmtree_if_exists, persistent_client_open]
  refine ⟨hind, ?_⟩
  rw [hind]
  cases hemb : embed_documents (documents.map (fun d => d.page_content)) with
  | error e =>
    refine ⟨[{ name := collection_name, entries := [] }], ?_, ?_⟩
    · simp [create_vector_store, rmtree_if_exists, persistent_client_open,
        get_or_create_collection, hemb]
    · simp
  | ok embeddings =>
    simp only [create_vector_store, rmtree_if_exists, persistent_client_open,
      get_or_create_collection, hemb, storeCollection]
    simp

/-- C10 witness: a successful rebuild of `"document_chunks"` over the prior
state that persisted a collection named `"old"` gives the same outcome as
rebuilding over no directory at all. -/
theorem create_vector_store_destroys_directory_witness :
    create_vector_store (fun ts => .ok (ts.map (fun _ => ([1] : Vec))))
        [{ page_content := "t", metadata := ⟨1, 0, "s"⟩ }] "document_chunks"
        examplePriorState =
      create_vector_store (fun ts => .ok (ts.map (fun _ => ([1] : Vec))))
        [{ page_content := "t", metadata := ⟨1, 0, "s"⟩ }] "document_chunks"
        { persist_dir := none } :=
  (create_vector_store_destroys_directory (fun ts => .ok (ts.map (fun _ => [1])))
    [{ page_content := "t", metadata := ⟨1, 0, "s"⟩ }] "document_chunks"
    examplePriorState).1

end DocExtract
